import Mathlib

/-!
Verification of the `union` Go package: generic tagged and untagged union
containers with JSON marshaling/unmarshaling.

The embedding models:
  * JSON values (`union.Json` / `union.JObj`), with Go's `encoding/json`
    conventions where they matter (map keys sorted on marshal, last
    duplicate key wins when building a map, `null` unmarshals into a map
    or a string as a no-op);
  * a Go payload field type as an abstract codec (`union.GoType`): its
    zero value, a lenient decoder (`json.Unmarshal`) and a strict decoder
    (`Decoder` with `DisallowUnknownFields`), with values represented by
    their canonical JSON encoding (a nil pointer is `Json.null`);
  * a Spec struct as a list of fields (name, `variant` tag, type), and a
    container's state as the list of current field values;
  * `TaggedUnion` and `Union` with `GetValue`, `MarshalJSON` and
    `UnmarshalJSON` translated clause by clause from `tagged_union.go`
    and `union.go`.  Methods with pointer receivers return an
    `UnmarshalResult` carrying both the returned error (if any) and the
    final, possibly mutated, receiver state.

Wire bytes are modelled as `Option Json`: `none` stands for input that the
interchange parser rejects outright; `Json.render` recovers the exact byte
string Go produces for the outputs compared byte-for-byte.
-/

namespace union

mutual
/-- JSON values. Numbers are integers (all payloads in scope are integral). -/
inductive Json where
  | null
  | bool (b : Bool)
  | num (n : Int)
  | str (s : String)
  | obj (kvs : JObj)
deriving DecidableEq

/-- The key/value entries of a JSON object, in textual order. -/
inductive JObj where
  | nil
  | cons (k : String) (v : Json) (rest : JObj)
deriving DecidableEq
end

/-- Lookup of a key in a JSON object as Go builds a `map` from it:
the last occurrence of a duplicated key wins. -/
def JObj.get : JObj → String → Option Json
  | .nil, _ => none
  | .cons k v rest, key =>
    match rest.get key with
    | some w => some w
    | none => if k = key then some v else none

mutual
/-- Render a JSON value exactly as Go's `encoding/json` emits it
(no spaces, object entries in stored order). -/
def Json.render : Json → String
  | .null => "null"
  | .bool b => if b then "true" else "false"
  | .num n => toString n
  | .str s => "\"" ++ s ++ "\""
  | .obj kvs => "\x7b" ++ kvs.render ++ "\x7d"
termination_by structural j => j

def JObj.render : JObj → String
  | .nil => ""
  | .cons k v .nil => "\"" ++ k ++ "\":" ++ v.render
  | .cons k v (.cons k2 v2 rest) =>
    "\"" ++ k ++ "\":" ++ v.render ++ "," ++ JObj.render (.cons k2 v2 rest)
termination_by structural o => o
end

/-- Lexicographic (byte-wise) order on strings, as `sort.Strings` compares
Go map keys (the keys in scope are ASCII, where code-point order and byte
order agree). -/
def strLtB (a b : String) : Bool :=
  go a.data b.data
where
  go : List Char → List Char → Bool
    | [], [] => false
    | [], _ :: _ => true
    | _ :: _, [] => false
    | c :: cs, d :: ds =>
      if c.toNat < d.toNat then true
      else if d.toNat < c.toNat then false
      else go cs ds

/-- Marshaling of a two-entry Go map literal `map[string]any{k1: v1, k2: v2}`:
on a duplicate key the later entry wins, and `json.Marshal` emits map keys
in ascending (lexicographic byte) order. -/
def marshalMap2 (k1 : String) (v1 : Json) (k2 : String) (v2 : Json) : JObj :=
  if k1 = k2 then .cons k2 v2 .nil
  else if strLtB k1 k2 then .cons k1 v1 (.cons k2 v2 .nil)
  else .cons k2 v2 (.cons k1 v1 .nil)

/-- Model of `json.Unmarshal(data, &raw)` for `raw : map[string]json.RawMessage`:
an object yields its entries, `null` leaves the map nil (no entries, no
error), anything else is a type-mismatch error. -/
def jsonToMap : Json → Except String JObj
  | .obj kvs => .ok kvs
  | .null => .ok .nil
  | _ => .error "cannot unmarshal into map"

/-- Model of `json.Unmarshal(raw, &s)` for `s : string`: a JSON string yields its
contents, `null` is a no-op leaving the zero value `""`, anything else is
a type-mismatch error. -/
def strUnmarshal : Json → Except String String
  | .str s => .ok s
  | .null => .ok ""
  | _ => .error "cannot unmarshal into string"

/-- A Go payload type, abstracted to what the union code observes of it:
its zero value, `json.Unmarshal` into a fresh value of the type (lenient),
and a `json.Decoder` with `DisallowUnknownFields` (strict).  A value of
the type is represented by its canonical JSON encoding, so marshaling a
field's current value is the identity. -/
structure GoType where
  zero : Json
  decode : Json → Except String Json
  decodeStrict : Json → Except String Json

/-- One field of a Spec struct: its Go name, its `variant` struct tag
(`""` when absent, as `reflect.StructTag.Get` reports), and its type. -/
structure Field where
  name : String
  tag : String
  type : GoType

/-- Resolution `cmp.Or(tf.Tag.Get("variant"), tf.Name)`: the tag when non-empty,
else the field name. -/
def Field.resolvedTag (f : Field) : String :=
  if f.tag = "" then f.name else f.tag

/-- A Spec struct value: each field paired with its current value. -/
abbrev FieldsVal := List (Field × Json)

/-- Whether a field currently holds a non-zero value (`!vf.IsZero()`). -/
def fieldSet (p : Field × Json) : Bool :=
  decide (p.2 ≠ p.1.type.zero)

/-- Number of fields currently set to a non-zero value. -/
def setCount (fs : FieldsVal) : Nat :=
  fs.countP fieldSet

/-- All fields hold their type's zero value (a fresh container). -/
def allZero (fs : FieldsVal) : Prop :=
  ∀ p ∈ fs, p.2 = p.1.type.zero

instance (fs : FieldsVal) : Decidable (allZero fs) :=
  inferInstanceAs (Decidable (∀ p ∈ fs, p.2 = p.1.type.zero))

/-- The value of a Spec: either of a non-struct underlying kind
(`reflect.Kind != Struct`), or a struct with its field values. -/
inductive SpecVal where
  | nonStruct (v : Json)
  | ofStruct (fields : FieldsVal)

/-- The field values of a struct-shaped Spec value (used to compare
container states without comparing the field descriptors). -/
def SpecVal.vals : SpecVal → Option (List Json)
  | .nonStruct _ => none
  | .ofStruct fs => some (fs.map (·.2))

/-- Number of set fields of a Spec value. -/
def SpecVal.setCount : SpecVal → Nat
  | .nonStruct _ => 0
  | .ofStruct fs => union.setCount fs

/-- The field-scanning loop shared verbatim by both `GetValue` methods:
skip zero fields; on a second non-zero field return nil at once;
otherwise remember the value. -/
def getValueLoop : FieldsVal → Option Json → Option Json
  | [], acc => acc
  | (f, v) :: rest, acc =>
    if v = f.type.zero then getValueLoop rest acc
    else
      match acc with
      | some _ => none
      | none => getValueLoop rest (some v)

/-- The `GetValue` logic common to `TaggedUnion` and `Union` (the two Go
methods are textually identical): nil for a non-struct Spec, else the
single non-zero field's value, or nil when none or several are set. -/
def SpecVal.getValue : SpecVal → Option Json
  | .nonStruct _ => none
  | .ofStruct fs => getValueLoop fs none

/-- The field-scanning loop shared by both `MarshalJSON` methods: skip
zero fields; error on a second non-zero field; remember the single
non-zero field and its value. -/
def marshalLoop : FieldsVal → Option (Field × Json) →
    Except String (Option (Field × Json))
  | [], acc => .ok acc
  | (f, v) :: rest, acc =>
    if v = f.type.zero then marshalLoop rest acc
    else
      match acc with
      | some _ => .error "multiple variants set"
      | none => marshalLoop rest (some (f, v))

/-- The container `TaggedUnion[Spec]`: the Spec value, together with the pair returned
by `fieldNames()` — `TaggedFieldNames()` when the Spec type implements
the hook, else `("type", "value")`. -/
structure TaggedUnion where
  names : String × String
  value : SpecVal

/-- The container `Union[Spec]`: the untagged union. -/
structure Union where
  value : SpecVal

def TaggedUnion.GetValue (u : TaggedUnion) : Option Json :=
  u.value.getValue

def Union.GetValue (u : Union) : Option Json :=
  u.value.getValue

/-- Method `TaggedUnion.MarshalJSON`: struct check, single-active-field scan,
then `json.Marshal` of the two-entry wrapper map. -/
def TaggedUnion.MarshalJSON (u : TaggedUnion) : Except String Json :=
  match u.value with
  | .nonStruct _ => .error "spec must be a struct"
  | .ofStruct fs =>
    match marshalLoop fs none with
    | .error e => .error e
    | .ok none => .error "zero variants set"
    | .ok (some (f, v)) =>
      .ok (.obj (marshalMap2 u.names.1 (.str f.resolvedTag) u.names.2 v))

/-- Method `Union.MarshalJSON`: struct check, single-active-field scan, then the
payload value marshaled directly with no wrapper. -/
def Union.MarshalJSON (u : Union) : Except String Json :=
  match u.value with
  | .nonStruct _ => .error "spec must be a struct"
  | .ofStruct fs =>
    match marshalLoop fs none with
    | .error e => .error e
    | .ok none => .error "zero variants set"
    | .ok (some (_, v)) => .ok v

/-- Outcome of an `UnmarshalJSON` call on a pointer receiver: the returned
error (`none` on success) and the receiver's final Spec value, including
any mutation performed before an error was returned. -/
structure UnmarshalResult where
  err : Option String
  value : SpecVal

/-- The field loop of `TaggedUnion.UnmarshalJSON`: fields whose resolved
tag differs from the discriminator are left untouched; on the first match
the payload is decoded into a fresh value of the field's type (propagating
a decode error) and assigned; a second match fails with
"multiple fields matched".  Returns (error, final field values, matched). -/
def tagLoop (variant : String) (rawValue : Json) :
    FieldsVal → Bool → Option String × FieldsVal × Bool
  | [], matched => (none, [], matched)
  | (f, v) :: rest, matched =>
    if f.resolvedTag ≠ variant then
      let r := tagLoop variant rawValue rest matched
      (r.1, (f, v) :: r.2.1, r.2.2)
    else if matched then
      (some "multiple fields matched", (f, v) :: rest, matched)
    else
      match f.type.decode rawValue with
      | .error e => (some e, (f, v) :: rest, matched)
      | .ok nv =>
        let r := tagLoop variant rawValue rest true
        (r.1, (f, nv) :: r.2.1, r.2.2)

/-- Method `TaggedUnion.UnmarshalJSON`: parse into a raw map, struct check,
resolve the two wrapper keys, require both, read the discriminator
string, then run the matching loop; "unknown variant" when no field
matched. -/
def TaggedUnion.UnmarshalJSON (u : TaggedUnion) (data : Option Json) :
    UnmarshalResult :=
  match data with
  | none => ⟨some "invalid JSON input", u.value⟩
  | some j =>
    match jsonToMap j with
    | .error e => ⟨some e, u.value⟩
    | .ok raw =>
      match u.value with
      | .nonStruct v => ⟨some "spec must be a struct", .nonStruct v⟩
      | .ofStruct fs =>
        match raw.get u.names.1 with
        | none => ⟨some ("missing variant field: " ++ u.names.1), .ofStruct fs⟩
        | some rawType =>
          match raw.get u.names.2 with
          | none => ⟨some ("missing value field: " ++ u.names.2), .ofStruct fs⟩
          | some rawValue =>
            match strUnmarshal rawType with
            | .error e => ⟨some e, .ofStruct fs⟩
            | .ok variant =>
              let r := tagLoop variant rawValue fs false
              match r.1 with
              | some e => ⟨some e, .ofStruct r.2.1⟩
              | none =>
                if r.2.2 then ⟨none, .ofStruct r.2.1⟩
                else ⟨some ("unknown variant: " ++ variant), .ofStruct r.2.1⟩

/-- One trial of `Union.UnmarshalJSON`: a fresh strict decoder over the
raw input bytes; unparseable input fails the trial like any other decode
error. -/
def untagAttempt (f : Field) (data : Option Json) : Except String Json :=
  match data with
  | none => .error "invalid JSON input"
  | some j => f.type.decodeStrict j

/-- The field loop of `Union.UnmarshalJSON`: try each field in declaration
order; on a strict-decode error continue; on success assign and stop only
if the decoded value is non-zero; `none` when every field is exhausted. -/
def untagLoop (data : Option Json) : FieldsVal → Option FieldsVal
  | [] => none
  | (f, v) :: rest =>
    match untagAttempt f data with
    | .error _ =>
      match untagLoop data rest with
      | some fs => some ((f, v) :: fs)
      | none => none
    | .ok nv =>
      if nv = f.type.zero then
        match untagLoop data rest with
        | some fs => some ((f, v) :: fs)
        | none => none
      else some ((f, nv) :: rest)

/-- Method `Union.UnmarshalJSON`: struct check, then the trial loop;
"no field matched" when no field qualifies. -/
def Union.UnmarshalJSON (u : Union) (data : Option Json) : UnmarshalResult :=
  match u.value with
  | .nonStruct v => ⟨some "spec must be a struct", .nonStruct v⟩
  | .ofStruct fs =>
    match untagLoop data fs with
    | some fs2 => ⟨none, .ofStruct fs2⟩
    | none => ⟨some "no field matched", .ofStruct fs⟩

/-- Whether a field qualifies in the untagged trial loop: its strict
decode of the input succeeds with a non-zero value. -/
def qualifies (data : Option Json) (f : Field) : Bool :=
  match untagAttempt f data with
  | .error _ => false
  | .ok nv => decide (nv ≠ f.type.zero)

/-! ### Concrete payload types

The test suite's `Circle`, `Rectangle` and `Triangle` payloads: structs of
numeric fields with lowercase `json` tags, used through pointer fields.
Unmarshaling a JSON object into a pointer allocates, so even an all-zero
object yields a non-nil (non-zero) pointer; unmarshaling `null` leaves the
pointer nil; a `null` or absent numeric entry leaves that number 0. -/

/-- Read one numeric entry of a JSON object as `json.Unmarshal` does for a
number field: absent or `null` keeps 0, a number is taken, anything else
is a type-mismatch error. -/
def numField (kvs : JObj) (k : String) : Except String Int :=
  match kvs.get k with
  | none => .ok 0
  | some (.num n) => .ok n
  | some .null => .ok 0
  | some _ => .error "cannot unmarshal into number"

/-- Do all keys of the object belong to the allowed key set?
(`DisallowUnknownFields` fails otherwise.) -/
def JObj.keysIn : JObj → List String → Bool
  | .nil, _ => true
  | .cons k _ rest, allowed => allowed.contains k && rest.keysIn allowed

/-- Build the canonical encoding of the decoded struct: every declared
numeric key, in declaration order, with its decoded value. -/
def buildNums (kvs : JObj) : List String → Except String JObj
  | [] => .ok .nil
  | k :: rest => do
    let n ← numField kvs k
    let tail ← buildNums kvs rest
    .ok (.cons k (.num n) tail)

/-- Decoding into a fresh `*S` where `S` is a struct of numeric fields
with keys `ks`: `null` gives a nil pointer, an object allocates and fills
the fields (rejecting unknown keys when strict), anything else is a
type-mismatch error. -/
def decodeStructP (ks : List String) (strict : Bool) : Json → Except String Json
  | .null => .ok .null
  | .obj kvs =>
    if strict && !(kvs.keysIn ks) then .error "unknown field"
    else (buildNums kvs ks).map Json.obj
  | _ => .error "cannot unmarshal into struct"

/-- The Go type `*S` for a numeric-field struct `S` with JSON keys `ks`. -/
def ptrType (ks : List String) : GoType :=
  { zero := .null
    decode := decodeStructP ks false
    decodeStrict := decodeStructP ks true }

/-- The Go type `*Circle` with `Radius float64 json:"radius"`. -/
def ptrCircle : GoType := ptrType ["radius"]

/-- The Go type `*Rectangle` with `width`, `height`. -/
def ptrRect : GoType := ptrType ["width", "height"]

/-- The Go type `*Triangle` with `base`, `height`. -/
def ptrTri : GoType := ptrType ["base", "height"]

/-- The README's tagged `Shape` Spec fields, with `variant` tags. -/
def circleFT : Field := ⟨"Circle", "circle", ptrCircle⟩

def rectFT : Field := ⟨"Rectangle", "rectangle", ptrRect⟩

def triFT : Field := ⟨"Triangle", "triangle", ptrTri⟩

/-- The test suite's untagged `UnionShape` Spec fields (no tags). -/
def circleF : Field := ⟨"Circle", "", ptrCircle⟩

def rectF : Field := ⟨"Rectangle", "", ptrRect⟩

def triF : Field := ⟨"Triangle", "", ptrTri⟩

/-- The value `&Circle{Radius: 5}` in canonical encoding. -/
def c5 : Json := .obj (.cons "radius" (.num 5) .nil)

/-- The value `&Rectangle{Width: 10, Height: 5}` in canonical encoding. -/
def r105 : Json := .obj (.cons "width" (.num 10) (.cons "height" (.num 5) .nil))

/-! ### Helper lemmas -/

theorem fieldSet_false_iff (p : Field × Json) :
    fieldSet p = false ↔ p.2 = p.1.type.zero := by
  simp [fieldSet]

theorem allZero_cons {p : Field × Json} {fs : FieldsVal} :
    allZero (p :: fs) ↔ p.2 = p.1.type.zero ∧ allZero fs := by
  simp [allZero]

theorem allZero_append {fs gs : FieldsVal} :
    allZero (fs ++ gs) ↔ allZero fs ∧ allZero gs := by
  unfold allZero
  exact List.forall_mem_append

theorem setCount_nil : setCount [] = 0 := rfl

theorem setCount_cons (p : Field × Json) (fs : FieldsVal) :
    setCount (p :: fs) = setCount fs + (if fieldSet p then 1 else 0) := by
  simp [setCount, List.countP_cons]

theorem setCount_eq_zero {fs : FieldsVal} :
    setCount fs = 0 ↔ allZero fs := by
  simp [setCount, List.countP_eq_zero, allZero, fieldSet]

theorem exists_set_of_pos {fs : FieldsVal} (h : 0 < setCount fs) :
    ∃ q ∈ fs, fieldSet q = true := by
  simpa [setCount] using List.countP_pos_iff.mp h

theorem map_zero_of_allZero {fs : FieldsVal} (h : allZero fs) :
    fs.map (fun p => (p.1, p.1.type.zero)) = fs := by
  induction fs with
  | nil => rfl
  | cons p tl ih =>
    obtain ⟨h1, h2⟩ := allZero_cons.mp h
    cases p with
    | mk f v =>
      simp only [List.map_cons, ih h2]
      simp_all

theorem marshalLoop_allZero :
    ∀ fs : FieldsVal, allZero fs → ∀ acc, marshalLoop fs acc = .ok acc
  | [], _, _ => rfl
  | (f, v) :: tl, h, acc => by
    obtain ⟨h1, h2⟩ := allZero_cons.mp h
    replace h1 : v = f.type.zero := h1
    simp [marshalLoop, h1, marshalLoop_allZero tl h2]

theorem marshalLoop_append_allZero {pre : FieldsVal} (h : allZero pre) :
    ∀ (rest : FieldsVal) (acc), marshalLoop (pre ++ rest) acc = marshalLoop rest acc := by
  induction pre with
  | nil => intro rest acc; rfl
  | cons p tl ih =>
    intro rest acc
    obtain ⟨h1, h2⟩ := allZero_cons.mp h
    cases p with
    | mk f v =>
      replace h1 : v = f.type.zero := h1
      simp [marshalLoop, h1, ih h2]

theorem marshalLoop_busy :
    ∀ fs : FieldsVal, (∃ q ∈ fs, fieldSet q = true) → ∀ pv,
      marshalLoop fs (some pv) = .error "multiple variants set"
  | [], h, _ => by simp at h
  | (f, v) :: tl, h, pv => by
    by_cases hz : v = f.type.zero
    · have htl : ∃ q ∈ tl, fieldSet q = true := by
        obtain ⟨q, hq, hset⟩ := h
        rcases List.mem_cons.mp hq with he | ht
        · rw [he] at hset; simp [fieldSet, hz] at hset
        · exact ⟨q, ht, hset⟩
      simp [marshalLoop, hz, marshalLoop_busy tl htl pv]
    · simp [marshalLoop, hz]

theorem marshalLoop_multi :
    ∀ fs : FieldsVal, 2 ≤ setCount fs →
      marshalLoop fs none = .error "multiple variants set"
  | (f, v) :: tl, h => by
    by_cases hz : v = f.type.zero
    · have hc : setCount ((f, v) :: tl) = setCount tl := by
        simp [setCount_cons, fieldSet, hz]
      rw [hc] at h
      simp [marshalLoop, hz, marshalLoop_multi tl h]
    · have hone : 1 ≤ setCount tl := by
        have hc : setCount ((f, v) :: tl) = setCount tl + 1 := by
          simp [setCount_cons, fieldSet, hz]
        omega
      have hex := exists_set_of_pos hone
      simp [marshalLoop, hz, marshalLoop_busy tl hex]
  | [], h => by simp [setCount_nil] at h

theorem marshalLoop_one :
    ∀ fs : FieldsVal, setCount fs = 1 →
      ∃ p, fieldSet p = true ∧ marshalLoop fs none = .ok (some p)
  | [], h => by simp [setCount_nil] at h
  | (f, v) :: tl, h => by
    by_cases hz : v = f.type.zero
    · have hc : setCount ((f, v) :: tl) = setCount tl := by
        simp [setCount_cons, fieldSet, hz]
      rw [hc] at h
      obtain ⟨p, hset, heq⟩ := marshalLoop_one tl h
      exact ⟨p, hset, by simp [marshalLoop, hz, heq]⟩
    · have hc : setCount ((f, v) :: tl) = setCount tl + 1 := by
        simp [setCount_cons, fieldSet, hz]
      have htl : allZero tl := setCount_eq_zero.mp (by omega)
      refine ⟨(f, v), by simp [fieldSet, hz], ?_⟩
      simp [marshalLoop, hz, marshalLoop_allZero tl htl]

theorem getValueLoop_allZero :
    ∀ fs : FieldsVal, allZero fs → ∀ acc, getValueLoop fs acc = acc
  | [], _, _ => rfl
  | (f, v) :: tl, h, acc => by
    obtain ⟨h1, h2⟩ := allZero_cons.mp h
    replace h1 : v = f.type.zero := h1
    simp [getValueLoop, h1, getValueLoop_allZero tl h2]

theorem getValueLoop_append_allZero {pre : FieldsVal} (h : allZero pre) :
    ∀ (rest : FieldsVal) (acc), getValueLoop (pre ++ rest) acc = getValueLoop rest acc := by
  induction pre with
  | nil => intro rest acc; rfl
  | cons p tl ih =>
    intro rest acc
    obtain ⟨h1, h2⟩ := allZero_cons.mp h
    cases p with
    | mk f v =>
      replace h1 : v = f.type.zero := h1
      simp [getValueLoop, h1, ih h2]

theorem getValueLoop_busy :
    ∀ fs : FieldsVal, (∃ q ∈ fs, fieldSet q = true) → ∀ x,
      getValueLoop fs (some x) = none
  | [], h, _ => by simp at h
  | (f, v) :: tl, h, x => by
    by_cases hz : v = f.type.zero
    · have htl : ∃ q ∈ tl, fieldSet q = true := by
        obtain ⟨q, hq, hset⟩ := h
        rcases List.mem_cons.mp hq with he | ht
        · rw [he] at hset; simp [fieldSet, hz] at hset
        · exact ⟨q, ht, hset⟩
      simp [getValueLoop, hz, getValueLoop_busy tl htl x]
    · simp [getValueLoop, hz]

theorem getValueLoop_multi :
    ∀ fs : FieldsVal, 2 ≤ setCount fs → getValueLoop fs none = none
  | (f, v) :: tl, h => by
    by_cases hz : v = f.type.zero
    · have hc : setCount ((f, v) :: tl) = setCount tl := by
        simp [setCount_cons, fieldSet, hz]
      rw [hc] at h
      simp [getValueLoop, hz, getValueLoop_multi tl h]
    · have hone : 1 ≤ setCount tl := by
        have hc : setCount ((f, v) :: tl) = setCount tl + 1 := by
          simp [setCount_cons, fieldSet, hz]
        omega
      have hex := exists_set_of_pos hone
      simp [getValueLoop, hz, getValueLoop_busy tl hex]
  | [], h => by simp [setCount_nil] at h

theorem marshalMap2_get_left {k1 k2 : String} (h : k1 ≠ k2) (v1 v2 : Json) :
    (marshalMap2 k1 v1 k2 v2).get k1 = some v1 := by
  by_cases hlt : strLtB k1 k2 <;>
    simp [marshalMap2, JObj.get, h, Ne.symm h, hlt]

theorem marshalMap2_get_right {k1 k2 : String} (h : k1 ≠ k2) (v1 v2 : Json) :
    (marshalMap2 k1 v1 k2 v2).get k2 = some v2 := by
  by_cases hlt : strLtB k1 k2 <;>
    simp [marshalMap2, JObj.get, h, Ne.symm h, hlt]

theorem tagLoop_nomatch {variant : String} {rawValue : Json} :
    ∀ fs : FieldsVal, (∀ p ∈ fs, p.1.resolvedTag ≠ variant) → ∀ m,
      tagLoop variant rawValue fs m = (none, fs, m)
  | [], _, m => rfl
  | (f, v) :: tl, h, m => by
    have hf : f.resolvedTag ≠ variant := h (f, v) (by simp)
    have htl : ∀ p ∈ tl, p.1.resolvedTag ≠ variant := fun p hp => h p (by simp [hp])
    simp [tagLoop, hf, tagLoop_nomatch tl htl m]

theorem tagLoop_append_nomatch {variant : String} {rawValue : Json} :
    ∀ pre : FieldsVal, (∀ p ∈ pre, p.1.resolvedTag ≠ variant) →
      ∀ (rest : FieldsVal) (m),
        tagLoop variant rawValue (pre ++ rest) m =
          ((tagLoop variant rawValue rest m).1,
            pre ++ (tagLoop variant rawValue rest m).2.1,
            (tagLoop variant rawValue rest m).2.2)
  | [], _, rest, m => rfl
  | (f, v) :: tl, h, rest, m => by
    have hf : f.resolvedTag ≠ variant := h (f, v) (by simp)
    have htl : ∀ p ∈ tl, p.1.resolvedTag ≠ variant := fun p hp => h p (by simp [hp])
    simp [tagLoop, hf, tagLoop_append_nomatch tl htl rest m]

theorem tagLoop_true_match {variant : String} {rawValue : Json} :
    ∀ fs : FieldsVal, (∃ q ∈ fs, q.1.resolvedTag = variant) →
      tagLoop variant rawValue fs true = (some "multiple fields matched", fs, true)
  | [], h => by simp at h
  | (f, v) :: tl, h => by
    by_cases hf : f.resolvedTag = variant
    · simp [tagLoop, hf]
    · have htl : ∃ q ∈ tl, q.1.resolvedTag = variant := by
        obtain ⟨q, hq, hm⟩ := h
        rcases List.mem_cons.mp hq with he | ht
        · rw [he] at hm; exact absurd hm hf
        · exact ⟨q, ht, hm⟩
      simp [tagLoop, hf, tagLoop_true_match tl htl]

theorem tagLoop_true_none_eq {variant : String} {rawValue : Json} :
    ∀ fs : FieldsVal, (tagLoop variant rawValue fs true).1 = none →
      (tagLoop variant rawValue fs true).2.1 = fs ∧
        (tagLoop variant rawValue fs true).2.2 = true
  | [], _ => ⟨rfl, rfl⟩
  | (f, v) :: tl, h => by
    by_cases hf : f.resolvedTag = variant
    · simp [tagLoop, hf] at h
    · simp only [tagLoop, ne_eq, hf, not_false_eq_true, if_pos] at h ⊢
      have := tagLoop_true_none_eq tl h
      simp [this.1, this.2]

theorem untagLoop_none {data : Option Json} :
    ∀ fs : FieldsVal, (∀ p ∈ fs, qualifies data p.1 = false) →
      untagLoop data fs = none
  | [], _ => rfl
  | (f, v) :: tl, h => by
    have hf : qualifies data f = false := h (f, v) (by simp)
    have htl : ∀ p ∈ tl, qualifies data p.1 = false := fun p hp => h p (by simp [hp])
    unfold qualifies at hf
    unfold untagLoop
    cases ha : untagAttempt f data with
    | error e => simp [ha, untagLoop_none tl htl]
    | ok nv =>
      rw [ha] at hf
      have hz : nv = f.type.zero := by simpa using hf
      simp [hz, untagLoop_none tl htl]

theorem untagLoop_first {data : Option Json} :
    ∀ pre : FieldsVal, (∀ p ∈ pre, qualifies data p.1 = false) →
      ∀ (f : Field) (v : Json) (post : FieldsVal) (w : Json),
        untagAttempt f data = .ok w → w ≠ f.type.zero →
        untagLoop data (pre ++ (f, v) :: post) = some (pre ++ (f, w) :: post)
  | [], _, f, v, post, w, hw, hnz => by
    simp [untagLoop, hw, hnz]
  | (g, x) :: tl, h, f, v, post, w, hw, hnz => by
    have hg : qualifies data g = false := h (g, x) (by simp)
    have htl : ∀ p ∈ tl, qualifies data p.1 = false := fun p hp => h p (by simp [hp])
    have ih := untagLoop_first tl htl f v post w hw hnz
    unfold qualifies at hg
    unfold untagLoop
    cases ha : untagAttempt g data with
    | error e => simp [ha, ih]
    | ok nv =>
      rw [ha] at hg
      have hz : nv = g.type.zero := by simpa using hg
      simp [ha, hz, ih]

theorem untagLoop_allZero_count {data : Option Json} :
    ∀ fs : FieldsVal, allZero fs → ∀ fs2, untagLoop data fs = some fs2 →
      setCount fs2 = 1
  | [], _, fs2, h => by simp [untagLoop] at h
  | (f, v) :: tl, hz, fs2, h => by
    obtain ⟨h1, h2⟩ := allZero_cons.mp hz
    replace h1 : v = f.type.zero := h1
    cases ha : untagAttempt f data with
    | error e =>
      simp only [untagLoop, ha] at h
      cases hu : untagLoop data tl with
      | none => rw [hu] at h; simp at h
      | some gs =>
        rw [hu] at h
        simp only [Option.some.injEq] at h
        subst h
        have := untagLoop_allZero_count tl h2 gs hu
        simp [setCount_cons, fieldSet, h1, this]
    | ok nv =>
      by_cases hnz : nv = f.type.zero
      · simp only [untagLoop, ha, hnz, eq_self_iff_true, ite_true] at h
        cases hu : untagLoop data tl with
        | none => rw [hu] at h; simp at h
        | some gs =>
          rw [hu] at h
          simp only [Option.some.injEq] at h
          subst h
          have := untagLoop_allZero_count tl h2 gs hu
          simp [setCount_cons, fieldSet, h1, this]
      · simp only [untagLoop, ha, if_neg hnz, Option.some.injEq] at h
        subst h
        have hc : setCount tl = 0 := setCount_eq_zero.mpr h2
        simp [setCount_cons, fieldSet, hnz, hc]

theorem tagLoop_allZero_count {variant : String} {rawValue : Json} :
    ∀ fs : FieldsVal, allZero fs → (tagLoop variant rawValue fs false).1 = none →
      setCount (tagLoop variant rawValue fs false).2.1 ≤ 1
  | [], _, _ => by simp [tagLoop, setCount_nil]
  | (f, v) :: tl, hz, h => by
    obtain ⟨h1, h2⟩ := allZero_cons.mp hz
    replace h1 : v = f.type.zero := h1
    by_cases hf : f.resolvedTag = variant
    · cases hd : f.type.decode rawValue with
      | error e => simp [tagLoop, hf, hd] at h
      | ok nv =>
        simp only [tagLoop, hf, ne_eq, not_true_eq_false, if_false, Bool.false_eq_true,
          hd] at h ⊢
        obtain ⟨heq, _⟩ := tagLoop_true_none_eq tl h
        rw [heq]
        have hc : setCount tl = 0 := setCount_eq_zero.mpr h2
        by_cases hnv : nv = f.type.zero <;>
          simp [setCount_cons, fieldSet, hnv, hc]
    · simp only [tagLoop, ne_eq, hf, not_false_eq_true, if_pos] at h ⊢
      have := tagLoop_allZero_count tl h2 h
      simp only [setCount_cons, fieldSet, h1]
      simp
      omega


/-! ### Claim theorems -/

/-- C4: for every Spec, marshaling a container (tagged or untagged) with
zero fields set fails with the "zero variants set" error, marshaling one
with two or more fields set fails with the "multiple variants set" error,
and with exactly one field set marshaling succeeds — these are the only
encode failures for struct-shaped Specs. -/
theorem encode_failure_modes (n : String × String) (fs : FieldsVal) :
    (setCount fs = 0 →
      TaggedUnion.MarshalJSON ⟨n, .ofStruct fs⟩ = .error "zero variants set" ∧
      Union.MarshalJSON ⟨.ofStruct fs⟩ = .error "zero variants set")
    ∧ (2 ≤ setCount fs →
      TaggedUnion.MarshalJSON ⟨n, .ofStruct fs⟩ = .error "multiple variants set" ∧
      Union.MarshalJSON ⟨.ofStruct fs⟩ = .error "multiple variants set")
    ∧ (setCount fs = 1 →
      (∃ j, TaggedUnion.MarshalJSON ⟨n, .ofStruct fs⟩ = .ok j) ∧
      (∃ j, Union.MarshalJSON ⟨.ofStruct fs⟩ = .ok j)) := by
  refine ⟨fun h => ?_, fun h => ?_, fun h => ?_⟩
  · have hz := setCount_eq_zero.mp h
    constructor <;>
      simp [TaggedUnion.MarshalJSON, Union.MarshalJSON, marshalLoop_allZero fs hz]
  · constructor <;>
      simp [TaggedUnion.MarshalJSON, Union.MarshalJSON, marshalLoop_multi fs h]
  · obtain ⟨p, _, heq⟩ := marshalLoop_one fs h
    cases p with
    | mk f v =>
      exact ⟨⟨.obj (marshalMap2 n.1 (.str f.resolvedTag) n.2 v),
          by simp [TaggedUnion.MarshalJSON, heq]⟩,
        ⟨v, by simp [Union.MarshalJSON, heq]⟩⟩

/-- Witness for C4 at the test suite Spec: two fields set fails with
"multiple variants set" on both containers. -/
theorem encode_failure_modes_witness :
    2 ≤ setCount [(circleF, c5), (rectF, r105), (triF, .null)] ∧
    TaggedUnion.MarshalJSON
        ⟨("type", "value"), .ofStruct [(circleF, c5), (rectF, r105), (triF, .null)]⟩
      = .error "multiple variants set" ∧
    Union.MarshalJSON ⟨.ofStruct [(circleF, c5), (rectF, r105), (triF, .null)]⟩
      = .error "multiple variants set" :=
  ⟨by decide,
    (encode_failure_modes ("type", "value")
      [(circleF, c5), (rectF, r105), (triF, .null)]).2.1 (by decide)⟩

/-- C8: `GetValue` on either container returns the active field's value
when exactly one field is non-zero, returns nil (absent) rather than
failing on zero or multiple set fields, and is a pure read (two calls on
an unmodified container agree). -/
theorem getvalue_query (n : String × String) (fs : FieldsVal) :
    (allZero fs →
      TaggedUnion.GetValue ⟨n, .ofStruct fs⟩ = none ∧
      Union.GetValue ⟨.ofStruct fs⟩ = none)
    ∧ (2 ≤ setCount fs →
      TaggedUnion.GetValue ⟨n, .ofStruct fs⟩ = none ∧
      Union.GetValue ⟨.ofStruct fs⟩ = none)
    ∧ (∀ pre f v post, fs = pre ++ (f, v) :: post → allZero pre → allZero post →
        v ≠ f.type.zero →
        TaggedUnion.GetValue ⟨n, .ofStruct fs⟩ = some v ∧
        Union.GetValue ⟨.ofStruct fs⟩ = some v)
    ∧ (TaggedUnion.GetValue ⟨n, .ofStruct fs⟩ = TaggedUnion.GetValue ⟨n, .ofStruct fs⟩ ∧
       Union.GetValue ⟨.ofStruct fs⟩ = Union.GetValue ⟨.ofStruct fs⟩) := by
  refine ⟨fun h => ?_, fun h => ?_, fun pre f v post hsplit hpre hpost hv => ?_, rfl, rfl⟩
  · constructor <;>
      simp [TaggedUnion.GetValue, Union.GetValue, SpecVal.getValue,
        getValueLoop_allZero fs h]
  · constructor <;>
      simp [TaggedUnion.GetValue, Union.GetValue, SpecVal.getValue,
        getValueLoop_multi fs h]
  · subst hsplit
    have hstep : getValueLoop (pre ++ (f, v) :: post) none = some v := by
      rw [getValueLoop_append_allZero hpre]
      simp [getValueLoop, hv, getValueLoop_allZero post hpost]
    constructor <;>
      simp [TaggedUnion.GetValue, Union.GetValue, SpecVal.getValue, hstep]

/-- Witness for C8 at the test suite Spec with only Rectangle set. -/
theorem getvalue_query_witness :
    allZero [(circleF, Json.null)] ∧ allZero [(triF, Json.null)] ∧
    r105 ≠ rectF.type.zero ∧
    TaggedUnion.GetValue
        ⟨("type", "value"), .ofStruct ([(circleF, .null)] ++ (rectF, r105) :: [(triF, .null)])⟩
      = some r105 ∧
    Union.GetValue ⟨.ofStruct ([(circleF, .null)] ++ (rectF, r105) :: [(triF, .null)])⟩
      = some r105 :=
  ⟨by decide, by decide, by decide,
    (getvalue_query ("type", "value")
        ([(circleF, .null)] ++ (rectF, r105) :: [(triF, .null)])).2.2.1
      [(circleF, .null)] rectF r105 [(triF, .null)] rfl (by decide) (by decide) (by decide)⟩

/-- C10: for a Spec whose underlying type is not a struct, `GetValue` on
either container returns nil (absent) rather than an error, while
`MarshalJSON` and `UnmarshalJSON` fail with the "spec must be a struct"
error (for tagged decode, once the input has parsed into a raw map). -/
theorem nonstruct_getvalue_vs_codec (v : Json) (n : String × String)
    (data : Option Json) (j : Json) (kvs : JObj) :
    TaggedUnion.GetValue ⟨n, .nonStruct v⟩ = none ∧
    Union.GetValue ⟨.nonStruct v⟩ = none ∧
    TaggedUnion.MarshalJSON ⟨n, .nonStruct v⟩ = .error "spec must be a struct" ∧
    Union.MarshalJSON ⟨.nonStruct v⟩ = .error "spec must be a struct" ∧
    (jsonToMap j = .ok kvs →
      TaggedUnion.UnmarshalJSON ⟨n, .nonStruct v⟩ (some j)
        = ⟨some "spec must be a struct", .nonStruct v⟩) ∧
    Union.UnmarshalJSON ⟨.nonStruct v⟩ data = ⟨some "spec must be a struct", .nonStruct v⟩ := by
  refine ⟨rfl, rfl, rfl, rfl, fun hm => ?_, rfl⟩
  simp [TaggedUnion.UnmarshalJSON, hm]

/-- Witness for C10 at the test suite non-struct Spec (`int`). -/
theorem nonstruct_getvalue_vs_codec_witness :
    jsonToMap (.obj (.cons "type" (.str "circle") .nil)) = .ok (.cons "type" (.str "circle") .nil) ∧
    TaggedUnion.GetValue ⟨("type", "value"), .nonStruct (.num 42)⟩ = none ∧
    TaggedUnion.UnmarshalJSON ⟨("type", "value"), .nonStruct (.num 42)⟩
        (some (.obj (.cons "type" (.str "circle") .nil)))
      = ⟨some "spec must be a struct", .nonStruct (.num 42)⟩ ∧
    Union.UnmarshalJSON ⟨.nonStruct (.num 42)⟩ (some (.num 42))
      = ⟨some "spec must be a struct", .nonStruct (.num 42)⟩ := by
  have h := nonstruct_getvalue_vs_codec (.num 42) ("type", "value") (some (.num 42))
    (.obj (.cons "type" (.str "circle") .nil)) (.cons "type" (.str "circle") .nil)
  exact ⟨rfl, h.1, h.2.2.2.2.1 rfl, h.2.2.2.2.2⟩

/-- C5 counterexample: untagged decode of unparseable wire bytes on the
test suite Spec fails with "no field matched", not with a propagated
parse error as the claim states. -/
theorem untagged_malformed_cex :
    (Union.UnmarshalJSON ⟨.ofStruct [(circleF, .null), (rectF, .null), (triF, .null)]⟩
        none).err = some "no field matched" := rfl

/-- C5 amended: untagged decode of wire bytes that cannot be parsed as
structured data fails with "no field matched" (every per-field strict
decode fails and its parse error is swallowed), leaving the container
unchanged. -/
theorem untagged_malformed_input (u : Union) (fs : FieldsVal)
    (h : u.value = .ofStruct fs) :
    u.UnmarshalJSON none = ⟨some "no field matched", .ofStruct fs⟩ := by
  cases u with
  | mk val =>
    simp only at h
    subst h
    have hnone : untagLoop none fs = none :=
      untagLoop_none fs (fun p _ => by simp [qualifies, untagAttempt])
    simp [Union.UnmarshalJSON, hnone]

/-- Witness for C5 at the test suite Spec. -/
theorem untagged_malformed_input_witness :
    (Union.mk (.ofStruct [(circleF, .null), (rectF, .null), (triF, .null)])).value
        = .ofStruct [(circleF, .null), (rectF, .null), (triF, .null)] ∧
    Union.UnmarshalJSON ⟨.ofStruct [(circleF, .null), (rectF, .null), (triF, .null)]⟩ none
      = ⟨some "no field matched",
          .ofStruct [(circleF, .null), (rectF, .null), (triF, .null)]⟩ :=
  ⟨rfl, untagged_malformed_input
    ⟨.ofStruct [(circleF, .null), (rectF, .null), (triF, .null)]⟩
    [(circleF, .null), (rectF, .null), (triF, .null)] rfl⟩

/-- C6 counterexample: with the naming hook returning ("kind", "data"),
tagged encode emits the sorted-key object with "data" first, not the
discriminator-first bytes the claim states. -/
theorem tagged_encode_custom_keys_cex :
    (TaggedUnion.MarshalJSON
          ⟨("kind", "data"), .ofStruct [(circleFT, c5), (rectFT, .null), (triFT, .null)]⟩).toOption.map
        Json.render
      = some "\x7b\"data\":\x7b\"radius\":5\x7d,\"kind\":\"circle\"\x7d" ∧
    "\x7b\"data\":\x7b\"radius\":5\x7d,\"kind\":\"circle\"\x7d"
      ≠ "\x7b\"kind\":\"circle\",\"data\":\x7b\"radius\":5\x7d\x7d" :=
  ⟨by decide, by decide⟩

/-- C6 amended: tagged encode emits the wrapper map with its keys in
ascending byte order (Go sorts map keys): with the default keys the
output is exactly the discriminator-first bytes of the claim, while the
("kind", "data") hook yields the payload key first. -/
theorem tagged_encode_key_order :
    (TaggedUnion.MarshalJSON
          ⟨("type", "value"), .ofStruct [(circleFT, c5), (rectFT, .null), (triFT, .null)]⟩).toOption.map
        Json.render
      = some "\x7b\"type\":\"circle\",\"value\":\x7b\"radius\":5\x7d\x7d" ∧
    (TaggedUnion.MarshalJSON
          ⟨("kind", "data"), .ofStruct [(circleFT, c5), (rectFT, .null), (triFT, .null)]⟩).toOption.map
        Json.render
      = some "\x7b\"data\":\x7b\"radius\":5\x7d,\"kind\":\"circle\"\x7d" :=
  ⟨by decide, by decide⟩


/-- C3: untagged decode tries each Spec field in declaration order with
the strict decoder; the first field whose strict decode succeeds with a
non-zero value is assigned (all other fields untouched) and decode
succeeds immediately; if no field qualifies, decode fails with
"no field matched". -/
theorem untagged_decode_order (u : Union) (fs : FieldsVal)
    (h : u.value = .ofStruct fs) (data : Option Json) :
    ((∀ p ∈ fs, qualifies data p.1 = false) →
      u.UnmarshalJSON data = ⟨some "no field matched", .ofStruct fs⟩)
    ∧ (∀ pre f v post w, fs = pre ++ (f, v) :: post →
        (∀ p ∈ pre, qualifies data p.1 = false) →
        untagAttempt f data = .ok w → w ≠ f.type.zero →
        u.UnmarshalJSON data = ⟨none, .ofStruct (pre ++ (f, w) :: post)⟩) := by
  cases u with
  | mk val =>
    simp only at h
    subst h
    constructor
    · intro hall
      simp [Union.UnmarshalJSON, untagLoop_none fs hall]
    · intro pre f v post w hsplit hpre hw hnz
      subst hsplit
      simp [Union.UnmarshalJSON, untagLoop_first pre hpre f v post w hw hnz]

/-- Witness for C3: the test suite's disambiguation example — input
`\x7b"height":10\x7d` against `\x7bCircle, Rectangle, Triangle\x7d` skips Circle
(strict decode rejects the unknown key) and assigns Rectangle
`\x7bWidth: 0, Height: 10\x7d` without trying Triangle. -/
theorem untagged_decode_order_witness :
    qualifies (some (.obj (.cons "height" (.num 10) .nil))) circleF = false ∧
    untagAttempt rectF (some (.obj (.cons "height" (.num 10) .nil)))
      = .ok (.obj (.cons "width" (.num 0) (.cons "height" (.num 10) .nil))) ∧
    Union.UnmarshalJSON ⟨.ofStruct [(circleF, .null), (rectF, .null), (triF, .null)]⟩
        (some (.obj (.cons "height" (.num 10) .nil)))
      = ⟨none, .ofStruct [(circleF, .null),
          (rectF, .obj (.cons "width" (.num 0) (.cons "height" (.num 10) .nil))),
          (triF, .null)]⟩ :=
  ⟨by decide, rfl,
    (untagged_decode_order ⟨.ofStruct [(circleF, .null), (rectF, .null), (triF, .null)]⟩
        [(circleF, .null), (rectF, .null), (triF, .null)] rfl
        (some (.obj (.cons "height" (.num 10) .nil)))).2
      [(circleF, .null)] rectF .null [(triF, .null)]
      (.obj (.cons "width" (.num 0) (.cons "height" (.num 10) .nil)))
      rfl (by decide) rfl (by decide)⟩

/-- C2 counterexample: untagged decode into a container that already has
Rectangle set succeeds on the Circle payload and leaves two fields set
(the Invalid state), refuting the claim for arbitrary starting states. -/
theorem decode_invalid_state_cex :
    (Union.UnmarshalJSON ⟨.ofStruct [(circleF, .null), (rectF, r105), (triF, .null)]⟩
        (some c5)).err = none ∧
    (Union.UnmarshalJSON ⟨.ofStruct [(circleF, .null), (rectF, r105), (triF, .null)]⟩
        (some c5)).value.setCount = 2 :=
  ⟨rfl, rfl⟩

/-- C2 amended: starting from a container whose fields are all zero, a
successful untagged decode leaves exactly one field set, and a successful
tagged decode leaves at most one field set (the matched field, which the
payload `null` may leave zero); neither ever produces the Invalid
(multiple-fields-set) state from a fresh container. -/
theorem decode_from_fresh (fs : FieldsVal) (hz : allZero fs) :
    (∀ (u : Union) (data : Option Json),
        u.value = .ofStruct fs → (u.UnmarshalJSON data).err = none →
        (u.UnmarshalJSON data).value.setCount = 1)
    ∧ (∀ (n : String × String) (data : Option Json),
        (TaggedUnion.UnmarshalJSON ⟨n, .ofStruct fs⟩ data).err = none →
        (TaggedUnion.UnmarshalJSON ⟨n, .ofStruct fs⟩ data).value.setCount ≤ 1) := by
  constructor
  · intro u data hu herr
    cases u with
    | mk val =>
      simp only at hu
      subst hu
      cases hloop : untagLoop data fs with
      | none => simp [Union.UnmarshalJSON, hloop] at herr
      | some fs2 =>
        simp [Union.UnmarshalJSON, hloop, SpecVal.setCount,
          untagLoop_allZero_count fs hz fs2 hloop]
  · intro n data herr
    cases data with
    | none => simp [TaggedUnion.UnmarshalJSON] at herr
    | some j =>
      cases hm : jsonToMap j with
      | error e => simp [TaggedUnion.UnmarshalJSON, hm] at herr
      | ok raw =>
        cases hg1 : raw.get n.1 with
        | none => simp [TaggedUnion.UnmarshalJSON, hm, hg1] at herr
        | some rt =>
          cases hg2 : raw.get n.2 with
          | none => simp [TaggedUnion.UnmarshalJSON, hm, hg1, hg2] at herr
          | some rv =>
            cases hs : strUnmarshal rt with
            | error e => simp [TaggedUnion.UnmarshalJSON, hm, hg1, hg2, hs] at herr
            | ok variant =>
              cases hl : (tagLoop variant rv fs false).1 with
              | some e =>
                simp [TaggedUnion.UnmarshalJSON, hm, hg1, hg2, hs, hl] at herr
              | none =>
                by_cases hb : (tagLoop variant rv fs false).2.2 = true
                · simp [TaggedUnion.UnmarshalJSON, hm, hg1, hg2, hs, hl, hb,
                    SpecVal.setCount]
                  exact tagLoop_allZero_count fs hz hl
                · simp [TaggedUnion.UnmarshalJSON, hm, hg1, hg2, hs, hl, hb] at herr

/-- Witness for C2 at the test suite Spec from a fresh container. -/
theorem decode_from_fresh_witness :
    allZero [(circleF, Json.null), (rectF, Json.null), (triF, Json.null)] ∧
    (Union.UnmarshalJSON ⟨.ofStruct [(circleF, .null), (rectF, .null), (triF, .null)]⟩
        (some c5)).err = none ∧
    (Union.UnmarshalJSON ⟨.ofStruct [(circleF, .null), (rectF, .null), (triF, .null)]⟩
        (some c5)).value.setCount = 1 :=
  ⟨by decide, rfl,
    (decode_from_fresh [(circleF, .null), (rectF, .null), (triF, .null)] (by decide)).1
      ⟨.ofStruct [(circleF, .null), (rectF, .null), (triF, .null)]⟩ (some c5) rfl rfl⟩


/-- C1 counterexample: a Spec with two fields sharing the resolved tag
"x" marshals successfully from its first field, but unmarshaling the
produced bytes into a fresh container of the same Spec fails with
"multiple fields matched", so the round trip does not hold for every
Spec. -/
theorem tagged_roundtrip_cex :
    TaggedUnion.MarshalJSON
        ⟨("type", "value"),
          .ofStruct [(⟨"A", "x", ptrCircle⟩, c5), (⟨"B", "x", ptrCircle⟩, .null)]⟩
      = .ok (.obj (.cons "type" (.str "x") (.cons "value" c5 .nil))) ∧
    (TaggedUnion.UnmarshalJSON
        ⟨("type", "value"),
          .ofStruct [(⟨"A", "x", ptrCircle⟩, .null), (⟨"B", "x", ptrCircle⟩, .null)]⟩
        (some (.obj (.cons "type" (.str "x") (.cons "value" c5 .nil))))).err
      = some "multiple fields matched" :=
  ⟨rfl, rfl⟩

/-- C1 amended: for every Spec in which no other field shares the set
field's resolved tag and the two wrapper keys are distinct, and a payload
value whose decode by the field's codec is faithful, unmarshaling the
bytes produced by marshaling a container with exactly that field set into
a fresh container of the same Spec succeeds and yields a container equal
to the original. -/
theorem tagged_roundtrip (n1 n2 : String) (pre post : FieldsVal) (f : Field) (v : Json)
    (hn : n1 ≠ n2)
    (hpre : allZero pre) (hpost : allZero post)
    (hpretag : ∀ p ∈ pre, p.1.resolvedTag ≠ f.resolvedTag)
    (hposttag : ∀ p ∈ post, p.1.resolvedTag ≠ f.resolvedTag)
    (hv : v ≠ f.type.zero)
    (hdec : f.type.decode v = .ok v) :
    ∃ wire,
      TaggedUnion.MarshalJSON ⟨(n1, n2), .ofStruct (pre ++ (f, v) :: post)⟩ = .ok wire ∧
      TaggedUnion.UnmarshalJSON
          ⟨(n1, n2), .ofStruct ((pre ++ (f, v) :: post).map (fun p => (p.1, p.1.type.zero)))⟩
          (some wire)
        = ⟨none, .ofStruct (pre ++ (f, v) :: post)⟩ := by
  refine ⟨.obj (marshalMap2 n1 (.str f.resolvedTag) n2 v), ?_, ?_⟩
  · have hloop : marshalLoop (pre ++ (f, v) :: post) none = .ok (some (f, v)) := by
      rw [marshalLoop_append_allZero hpre]
      simp [marshalLoop, hv, marshalLoop_allZero post hpost]
    simp [TaggedUnion.MarshalJSON, hloop]
  · have hfresh : (pre ++ (f, v) :: post).map (fun p => (p.1, p.1.type.zero))
        = pre ++ (f, f.type.zero) :: post := by
      simp [map_zero_of_allZero hpre, map_zero_of_allZero hpost]
    rw [hfresh]
    have htail : tagLoop f.resolvedTag v ((f, f.type.zero) :: post) false
        = (none, (f, v) :: post, true) := by
      simp [tagLoop, hdec, tagLoop_nomatch post hposttag true]
    have hloop2 : tagLoop f.resolvedTag v (pre ++ (f, f.type.zero) :: post) false
        = (none, pre ++ (f, v) :: post, true) := by
      rw [tagLoop_append_nomatch pre hpretag, htail]
    simp [TaggedUnion.UnmarshalJSON, jsonToMap,
      marshalMap2_get_left hn, marshalMap2_get_right hn, strUnmarshal, hloop2]

/-- Witness for C1 at the README Shape Spec with Circle set to radius 5. -/
theorem tagged_roundtrip_witness :
    ("type" : String) ≠ "value" ∧ c5 ≠ circleFT.type.zero ∧
    (∃ wire,
      TaggedUnion.MarshalJSON
          ⟨("type", "value"), .ofStruct ([] ++ (circleFT, c5) :: [(rectFT, .null), (triFT, .null)])⟩
        = .ok wire ∧
      TaggedUnion.UnmarshalJSON
          ⟨("type", "value"),
            .ofStruct ((([] : FieldsVal) ++ (circleFT, c5) :: [(rectFT, .null), (triFT, .null)]).map
              (fun p => (p.1, p.1.type.zero)))⟩
          (some wire)
        = ⟨none, .ofStruct ([] ++ (circleFT, c5) :: [(rectFT, .null), (triFT, .null)])⟩) :=
  ⟨by decide, by decide,
    tagged_roundtrip "type" "value" [] [(rectFT, .null), (triFT, .null)] circleFT c5
      (by decide) (by decide) (by decide) (by decide) (by decide) (by decide) rfl⟩

/-- C7 counterexample: with two fields sharing tag "x" and a payload that
does not decode into the first matching field, tagged decode fails with
the propagated payload decode error rather than "multiple fields
matched", so the MultipleFieldsMatched trigger is not exact. -/
theorem tagged_decode_error_triggers_cex :
    (TaggedUnion.UnmarshalJSON
        ⟨("type", "value"),
          .ofStruct [(⟨"A", "x", ptrCircle⟩, .null), (⟨"B", "x", ptrCircle⟩, .null)]⟩
        (some (.obj (.cons "type" (.str "x") (.cons "value" (.str "bad") .nil))))).err
      = some "cannot unmarshal into struct" ∧
    (some "cannot unmarshal into struct" : Option String)
      ≠ some "multiple fields matched" :=
  ⟨rfl, by decide⟩

/-- C7 amended: for tagged decode of a well-formed object, the error is
"missing variant field" exactly when the discriminator key is absent,
"missing value field" exactly when the payload key is absent (with the
discriminator present), "unknown variant" when the discriminator is a
string matching no field's resolved tag, and "multiple fields matched"
when a second field shares the matched tag and the payload decoded
successfully into the first matching field (a payload decode failure on
the first match propagates instead). -/
theorem tagged_decode_error_triggers (n1 n2 : String) (fs : FieldsVal) (kvs : JObj) :
    (kvs.get n1 = none →
      TaggedUnion.UnmarshalJSON ⟨(n1, n2), .ofStruct fs⟩ (some (.obj kvs))
        = ⟨some ("missing variant field: " ++ n1), .ofStruct fs⟩)
    ∧ (∀ rt, kvs.get n1 = some rt → kvs.get n2 = none →
      TaggedUnion.UnmarshalJSON ⟨(n1, n2), .ofStruct fs⟩ (some (.obj kvs))
        = ⟨some ("missing value field: " ++ n2), .ofStruct fs⟩)
    ∧ (∀ s rv, kvs.get n1 = some (.str s) → kvs.get n2 = some rv →
      (∀ p ∈ fs, p.1.resolvedTag ≠ s) →
      TaggedUnion.UnmarshalJSON ⟨(n1, n2), .ofStruct fs⟩ (some (.obj kvs))
        = ⟨some ("unknown variant: " ++ s), .ofStruct fs⟩)
    ∧ (∀ s rv pre f v mid g w post nv,
      kvs.get n1 = some (.str s) → kvs.get n2 = some rv →
      fs = pre ++ (f, v) :: (mid ++ (g, w) :: post) →
      (∀ p ∈ pre, p.1.resolvedTag ≠ s) → f.resolvedTag = s →
      (∀ p ∈ mid, p.1.resolvedTag ≠ s) → g.resolvedTag = s →
      f.type.decode rv = .ok nv →
      (TaggedUnion.UnmarshalJSON ⟨(n1, n2), .ofStruct fs⟩ (some (.obj kvs))).err
        = some "multiple fields matched") := by
  refine ⟨fun h1 => ?_, fun rt h1 h2 => ?_, fun s rv h1 h2 hno => ?_,
    fun s rv pre f v mid g w post nv h1 h2 hsplit hpre hf hmid hgt hdec => ?_⟩
  · simp [TaggedUnion.UnmarshalJSON, jsonToMap, h1]
  · simp [TaggedUnion.UnmarshalJSON, jsonToMap, h1, h2]
  · have hl := @tagLoop_nomatch s rv fs hno false
    simp [TaggedUnion.UnmarshalJSON, jsonToMap, h1, h2, strUnmarshal, hl]
  · subst hsplit
    have hrest : tagLoop s rv (mid ++ (g, w) :: post) true
        = (some "multiple fields matched", mid ++ (g, w) :: post, true) := by
      rw [tagLoop_append_nomatch mid hmid,
        tagLoop_true_match ((g, w) :: post) ⟨(g, w), by simp, hgt⟩]
    have hloop : tagLoop s rv ((f, v) :: (mid ++ (g, w) :: post)) false
        = (some "multiple fields matched", (f, nv) :: (mid ++ (g, w) :: post), true) := by
      simp [tagLoop, hf, hdec, hrest]
    have hfull : tagLoop s rv (pre ++ (f, v) :: (mid ++ (g, w) :: post)) false
        = (some "multiple fields matched", pre ++ (f, nv) :: (mid ++ (g, w) :: post), true) := by
      rw [tagLoop_append_nomatch pre hpre, hloop]
    simp [TaggedUnion.UnmarshalJSON, jsonToMap, h1, h2, strUnmarshal, hfull]

/-- Witness for C7: the spec's literal example — the README Shape Spec
with input missing the discriminator key fails with
"missing variant field: type". -/
theorem tagged_decode_error_triggers_witness :
    (JObj.cons "value" c5 .nil).get "type" = none ∧
    TaggedUnion.UnmarshalJSON
        ⟨("type", "value"), .ofStruct [(circleFT, .null), (rectFT, .null), (triFT, .null)]⟩
        (some (.obj (.cons "value" c5 .nil)))
      = ⟨some ("missing variant field: " ++ "type"),
          .ofStruct [(circleFT, .null), (rectFT, .null), (triFT, .null)]⟩ :=
  ⟨rfl,
    (tagged_decode_error_triggers "type" "value"
        [(circleFT, .null), (rectFT, .null), (triFT, .null)]
        (.cons "value" c5 .nil)).1 rfl⟩

/-- C9: when two Spec fields share the matched tag and the payload
decodes successfully into the first of them, tagged decode returns the
"multiple fields matched" error only after assigning the decoded payload
to the first matching field, so the container state is modified despite
the failure. -/
theorem tagged_decode_nonatomic (n1 n2 variant : String) (kvs : JObj)
    (pre mid post : FieldsVal) (f g : Field) (v w rv nv : Json)
    (hg1 : kvs.get n1 = some (.str variant)) (hg2 : kvs.get n2 = some rv)
    (hpre : ∀ p ∈ pre, p.1.resolvedTag ≠ variant) (hf : f.resolvedTag = variant)
    (hmid : ∀ p ∈ mid, p.1.resolvedTag ≠ variant) (hgt : g.resolvedTag = variant)
    (hdec : f.type.decode rv = .ok nv) (hne : nv ≠ v) :
    TaggedUnion.UnmarshalJSON
        ⟨(n1, n2), .ofStruct (pre ++ (f, v) :: (mid ++ (g, w) :: post))⟩ (some (.obj kvs))
      = ⟨some "multiple fields matched",
          .ofStruct (pre ++ (f, nv) :: (mid ++ (g, w) :: post))⟩ ∧
    SpecVal.vals (.ofStruct (pre ++ (f, nv) :: (mid ++ (g, w) :: post)))
      ≠ SpecVal.vals (.ofStruct (pre ++ (f, v) :: (mid ++ (g, w) :: post))) := by
  constructor
  · have hrest : tagLoop variant rv (mid ++ (g, w) :: post) true
        = (some "multiple fields matched", mid ++ (g, w) :: post, true) := by
      rw [tagLoop_append_nomatch mid hmid,
        tagLoop_true_match ((g, w) :: post) ⟨(g, w), by simp, hgt⟩]
    have hloop : tagLoop variant rv ((f, v) :: (mid ++ (g, w) :: post)) false
        = (some "multiple fields matched", (f, nv) :: (mid ++ (g, w) :: post), true) := by
      simp [tagLoop, hf, hdec, hrest]
    have hfull : tagLoop variant rv (pre ++ (f, v) :: (mid ++ (g, w) :: post)) false
        = (some "multiple fields matched", pre ++ (f, nv) :: (mid ++ (g, w) :: post), true) := by
      rw [tagLoop_append_nomatch pre hpre, hloop]
    simp [TaggedUnion.UnmarshalJSON, jsonToMap, hg1, hg2, strUnmarshal, hfull]
  · intro hv
    simp only [SpecVal.vals, Option.some.injEq, List.map_append, List.map_cons] at hv
    have h2 := List.append_cancel_left hv
    injection h2 with h3 _
    exact hne h3

/-- Witness for C9 at a duplicate-tag Spec: the first field holds the
decoded Circle payload when the error is returned. -/
theorem tagged_decode_nonatomic_witness :
    (c5 : Json) ≠ .null ∧
    TaggedUnion.UnmarshalJSON
        ⟨("type", "value"),
          .ofStruct [(⟨"A", "x", ptrCircle⟩, .null), (⟨"B", "x", ptrCircle⟩, .null)]⟩
        (some (.obj (.cons "type" (.str "x") (.cons "value" c5 .nil))))
      = ⟨some "multiple fields matched",
          .ofStruct [(⟨"A", "x", ptrCircle⟩, c5), (⟨"B", "x", ptrCircle⟩, .null)]⟩ ∧
    SpecVal.vals (.ofStruct [(⟨"A", "x", ptrCircle⟩, c5), (⟨"B", "x", ptrCircle⟩, .null)])
      ≠ SpecVal.vals (.ofStruct [(⟨"A", "x", ptrCircle⟩, .null), (⟨"B", "x", ptrCircle⟩, .null)]) := by
  have h := tagged_decode_nonatomic "type" "value" "x"
    (.cons "type" (.str "x") (.cons "value" c5 .nil)) [] [] []
    ⟨"A", "x", ptrCircle⟩ ⟨"B", "x", ptrCircle⟩ .null .null c5 c5
    rfl rfl (by simp) rfl (by simp) rfl rfl (by decide)
  exact ⟨by decide, h.1, h.2⟩

end union
